import Mathlib

/-!
Shallow embedding of `codegen/src/types/composite_def.rs` (subxt code
generator): the field normalizer (`CompositeDefFields::from_scale_info_fields`),
the composite emitter (`CompositeDef::struct_def`, `enum_variant_def` and their
`ToTokens` rendering) and the per-field heuristics (`is_boxed`, `compact_attr`).

Token streams produced by the Rust `quote!` templates are modelled as lists of
atomic tokens; interpolated collaborator values (the derive set, the generic
parameter list, a type path, a phantom-data marker) each become one carrier
token, since this file only ever splices them whole.
-/

namespace CompositeDefModel

/-- `scale_info::TypeDefPrimitive` (the external metadata crate). -/
inductive TypeDefPrimitive
  | bool | char | str
  | u8 | u16 | u32 | u64 | u128 | u256
  | i8 | i16 | i32 | i64 | i128 | i256
  deriving DecidableEq, Repr

/-- `scale_info::TypeDef`, restricted to what `struct_def` inspects: the
`Primitive` arm is matched on, every other arm is only ever "not primitive". -/
inductive TypeDef
  | primitive (p : TypeDefPrimitive)
  | other
  deriving DecidableEq, Repr

/-- Modelled from the spec: a resolved type (`scale_info::Type`) as returned by
`TypeGenerator::resolve_type`; `struct_def` only reads its `type_def()`. -/
structure ResolvedTy where
  type_def : TypeDef
  deriving DecidableEq, Repr

/-- Modelled from the spec: `TypePath` (types/mod.rs, not under src/), exposing
its display form and `is_compact()`. -/
structure TypePath where
  display : String
  is_compact : Bool
  deriving DecidableEq, Repr

/-- Modelled from the spec: `TypeParameter` (types/mod.rs, not under src/);
`struct_def` only reads `original_name`. -/
structure TypeParameter where
  original_name : String
  deriving DecidableEq, Repr

/-- Modelled from the spec: `TypeDefParameters` (types/mod.rs, not under src/):
the declared generic parameters plus the optional unused-parameters
phantom-data marker type produced by `unused_params_phantom_data()`. -/
structure TypeDefParameters where
  params : List TypeParameter
  unused_phantom : Option String
  deriving DecidableEq, Repr

/-- A single derive directive in the ambient derive set. -/
inductive Derive
  | codec_compact_as
  | other (s : String)
  deriving DecidableEq, Repr

/-- Modelled from the spec: `GeneratedTypeDerives` (types/mod.rs, not under
src/), an ordered append-only collection of derive directives. -/
abbrev GeneratedTypeDerives := List Derive

/-- Modelled from the spec: `GeneratedTypeDerives::push_codec_compact_as`
appends the compact-as derive directive. -/
def push_codec_compact_as (ds : GeneratedTypeDerives) : GeneratedTypeDerives :=
  ds ++ [Derive.codec_compact_as]

/-- `scale_info::Field`: optional name, type id, optional original type name. -/
structure Field where
  name : Option String
  ty_id : Nat
  type_name : Option String
  deriving DecidableEq, Repr

/-- Modelled from the spec: the `TypeGenerator` collaborator, reduced to the
three capabilities `composite_def.rs` uses: resolving a type id to a display
path (given the enclosing generics), resolving a type id to its registry
entry, and exposing the ambient derive set. -/
structure TypeGenerator where
  resolve_type_path : Nat → List TypeParameter → TypePath
  resolve_type : Nat → ResolvedTy
  derives : GeneratedTypeDerives

/-- `CompositeDefFieldType`: one field of a composite type to be generated. -/
structure CompositeDefFieldType where
  type_id : Nat
  type_path : TypePath
  type_name : Option String
  deriving DecidableEq, Repr

/-- Boolean list-prefix test (used to model Rust `str::contains`). -/
def isPrefixB : List Char → List Char → Bool
  | [], _ => true
  | _ :: _, [] => false
  | a :: as, b :: bs => a = b && isPrefixB as bs

/-- Boolean substring search over character lists: does `s` contain `pat`
starting at some position? Mirrors Rust `str::contains` on the char level. -/
def containsSub (pat : List Char) : List Char → Bool
  | [] => pat.isEmpty
  | c :: rest => isPrefixB pat (c :: rest) || containsSub pat rest

/-- Rust `String::contains(pat)` for a string pattern. -/
def strContains (s pat : String) : Bool :=
  containsSub pat.toList s.toList

/-- `CompositeDefFieldType::is_boxed`: the textual heuristic from
composite_def.rs — true iff the original type name contains `Box<`. -/
def CompositeDefFieldType.is_boxed (f : CompositeDefFieldType) : Bool :=
  match f.type_name with
  | some ty_name => strContains ty_name "Box<"
  | none => false

/-- The fields of a composite: none, all named, or all unnamed. -/
inductive CompositeDefFields
  | NoFields
  | Named (fields : List (String × CompositeDefFieldType))
  | Unnamed (fields : List CompositeDefFieldType)
  deriving DecidableEq, Repr

/-- The loop body of `from_scale_info_fields`: resolve one raw field. -/
def mkFieldType (type_gen : TypeGenerator) (parent_type_params : List TypeParameter)
    (field : Field) : CompositeDefFieldType :=
  { type_id := field.ty_id
    type_path := type_gen.resolve_type_path field.ty_id parent_type_params
    type_name := field.type_name }

/-- The ASCII single-quote character (code 39) used by the mixed-naming
diagnostic format string. -/
def sq : String := String.singleton (Char.ofNat 39)

/-- The diagnostic of the `abort_call_site` call in `from_scale_info_fields`:
the offending declared type's name in single quotes, then the message. -/
def mixedNamingMsg (name : String) : String :=
  sq ++ name ++ sq ++ ": Fields should either be all named or all unnamed."

/-- The accumulation loop of `from_scale_info_fields`: bucket every field into
the named and unnamed vectors, preserving input order within each bucket. -/
def collectFields (type_gen : TypeGenerator) (parent_type_params : List TypeParameter) :
    List Field → List (String × CompositeDefFieldType) × List CompositeDefFieldType
  | [] => ([], [])
  | field :: rest =>
    let acc := collectFields type_gen parent_type_params rest
    let field_type := mkFieldType type_gen parent_type_params field
    match field.name with
    | some n => ((n, field_type) :: acc.1, acc.2)
    | none => (acc.1, field_type :: acc.2)

/-- `CompositeDefFields::from_scale_info_fields`. The Rust function aborts the
proc-macro invocation (`abort_call_site!`) on mixed naming; the fatal path is
modelled as `Except.error` carrying the formatted diagnostic. -/
def CompositeDefFields.from_scale_info_fields (name : String) (fields : List Field)
    (parent_type_params : List TypeParameter) (type_gen : TypeGenerator) :
    Except String CompositeDefFields :=
  if fields.isEmpty then
    Except.ok CompositeDefFields.NoFields
  else
    let acc := collectFields type_gen parent_type_params fields
    let named_fields := acc.1
    let unnamed_fields := acc.2
    if ¬ named_fields.isEmpty ∧ ¬ unnamed_fields.isEmpty then
      Except.error (mixedNamingMsg name)
    else if ¬ named_fields.isEmpty then
      Except.ok (CompositeDefFields.Named named_fields)
    else
      Except.ok (CompositeDefFields.Unnamed unnamed_fields)

/-- `CompositeDefFields::field_types`: the fields in declaration order. -/
def CompositeDefFields.field_types : CompositeDefFields → List CompositeDefFieldType
  | CompositeDefFields.NoFields => []
  | CompositeDefFields.Named named_fields => named_fields.map Prod.snd
  | CompositeDefFields.Unnamed unnamed_fields => unnamed_fields

/-- Which kind of composite is generated: a standalone `struct` (with its
derive set, generic parameters and field visibility) or an `enum` variant. -/
inductive CompositeDefKind
  | Struct (derives : GeneratedTypeDerives) (type_params : TypeDefParameters)
      (field_visibility : Option String)
  | EnumVariant
  deriving DecidableEq, Repr

/-- `CompositeDef`: name, kind and normalized field model. -/
structure CompositeDef where
  name : String
  kind : CompositeDefKind
  fields : CompositeDefFields
  deriving DecidableEq, Repr

/-- Does a `scale_info` type definition match
`TypeDef::Primitive(U8 | U16 | U32 | U64 | U128)` — the arm pattern of the
`matches!` in `struct_def`? -/
def isUnsignedIntPrimitive : TypeDef → Bool
  | TypeDef.primitive TypeDefPrimitive.u8 => true
  | TypeDef.primitive TypeDefPrimitive.u16 => true
  | TypeDef.primitive TypeDefPrimitive.u32 => true
  | TypeDef.primitive TypeDefPrimitive.u64 => true
  | TypeDef.primitive TypeDefPrimitive.u128 => true
  | _ => false

/-- Modelled from the spec: the external casing transform (heck `CamelCase`,
the spec's `to_declaration_case`). No claim inspects the produced identifier,
so the transform is modelled as the identity on names. -/
def to_camel_case (s : String) : String := s

/-- `CompositeDef::struct_def`: clone the ambient derive set, conditionally
push the compact-as derive (single field, whose `type_name` matches no generic
parameter's `original_name`, whose resolved type is an unsigned-int
primitive), and wrap everything in `Struct` kind. -/
def CompositeDef.struct_def (ident : String) (type_params : TypeDefParameters)
    (fields_def : CompositeDefFields) (field_visibility : Option String)
    (type_gen : TypeGenerator) : CompositeDef :=
  let derives0 := type_gen.derives
  let fields := fields_def.field_types
  let derives :=
    match fields with
    | [field] =>
      if ¬ (type_params.params.any fun tp => some tp.original_name = field.type_name) then
        if isUnsignedIntPrimitive (type_gen.resolve_type field.type_id).type_def then
          push_codec_compact_as derives0
        else derives0
      else derives0
    | _ => derives0
  { name := to_camel_case ident
    kind := CompositeDefKind.Struct derives type_params field_visibility
    fields := fields_def }

/-- `CompositeDef::enum_variant_def`. -/
def CompositeDef.enum_variant_def (ident : String) (fields : CompositeDefFields) :
    CompositeDef :=
  { name := ident, kind := CompositeDefKind.EnumVariant, fields := fields }

/-- One atomic token of the generated declaration. Collaborator values that
the `quote!` templates splice whole (the derive block, the generic-parameter
list, a type path, the phantom-data marker type) are carrier tokens. -/
inductive Token
  | derivesBlock (ds : GeneratedTypeDerives)
  | pubKw
  | structKw
  | ident (s : String)
  | typeParamsTok (ps : TypeDefParameters)
  | semicolon
  | lbrace | rbrace
  | lparen | rparen
  | comma
  | colon
  | compactAttr
  | skipAttr
  | visTok (v : String)
  | boxOpen
  | gtClose
  | pathTok (p : String)
  | phantomTok (p : String)
  | unusedMarkerName
  deriving DecidableEq, Repr

/-- A rendered stream of tokens (the model of `proc_macro2::TokenStream`). -/
abbrev TokenStream := List Token

/-- Splice an optional visibility, as `quote!` does with `#visibility`:
nothing when absent. -/
def visTokens : Option String → TokenStream
  | some v => [Token.visTok v]
  | none => []

/-- `CompositeDefFieldType::compact_attr`: the `#[codec(compact)]` attribute
iff the resolved type path is compact. -/
def CompositeDefFieldType.compact_attr (f : CompositeDefFieldType) : Option TokenStream :=
  if f.type_path.is_compact then some [Token.compactAttr] else none

/-- Splice an optional token stream, as `quote!` does: nothing when absent. -/
def optTokens : Option TokenStream → TokenStream
  | some ts => ts
  | none => []

/-- `ToTokens for CompositeDefFieldType`: the resolved path, wrapped in the
`::std::boxed::Box< … >` indirection when `is_boxed`. -/
def CompositeDefFieldType.toTokens (f : CompositeDefFieldType) : TokenStream :=
  if f.is_boxed then
    [Token.boxOpen, Token.pathTok f.type_path.display, Token.gtClose]
  else
    [Token.pathTok f.type_path.display]

/-- The per-field closure of `to_struct_field_tokens` in the `Named` arm:
`#compact_attr #visibility #name: #ty`. -/
def structNamedFieldTokens (visibility : Option String)
    (field : String × CompositeDefFieldType) : TokenStream :=
  optTokens field.2.compact_attr ++ visTokens visibility ++
    [Token.ident field.1, Token.colon] ++ field.2.toTokens

/-- The per-field closure of `to_struct_field_tokens` in the `Unnamed` arm:
`#compact_attr #visibility #ty`. -/
def structUnnamedFieldTokens (visibility : Option String)
    (field : CompositeDefFieldType) : TokenStream :=
  optTokens field.compact_attr ++ visTokens visibility ++ field.toTokens

/-- `CompositeDefFields::to_struct_field_tokens`. -/
def CompositeDefFields.to_struct_field_tokens (fields_def : CompositeDefFields)
    (phantom_data : Option String) (visibility : Option String) : TokenStream :=
  match fields_def with
  | CompositeDefFields.NoFields =>
    match phantom_data with
    | some phantom => [Token.lparen, Token.phantomTok phantom, Token.rparen]
    | none => []
  | CompositeDefFields.Named fields =>
    let marker :=
      match phantom_data with
      | some phantom =>
        [Token.skipAttr] ++ visTokens visibility ++
          [Token.unusedMarkerName, Token.colon, Token.phantomTok phantom]
      | none => []
    [Token.lbrace] ++
      (fields.flatMap fun field => structNamedFieldTokens visibility field ++ [Token.comma]) ++
      marker ++ [Token.rbrace]
  | CompositeDefFields.Unnamed fields =>
    let marker :=
      match phantom_data with
      | some phantom =>
        [Token.skipAttr] ++ visTokens visibility ++ [Token.phantomTok phantom]
      | none => []
    [Token.lparen] ++
      (fields.flatMap fun field => structUnnamedFieldTokens visibility field ++ [Token.comma]) ++
      marker ++ [Token.rparen]

/-- The per-field closure of `to_enum_variant_field_tokens` in the `Named`
arm: `#compact_attr #name: #ty`. -/
def variantNamedFieldTokens (field : String × CompositeDefFieldType) : TokenStream :=
  optTokens field.2.compact_attr ++ [Token.ident field.1, Token.colon] ++ field.2.toTokens

/-- The per-field closure of `to_enum_variant_field_tokens` in the `Unnamed`
arm: `#compact_attr #ty`. -/
def variantUnnamedFieldTokens (field : CompositeDefFieldType) : TokenStream :=
  optTokens field.compact_attr ++ field.toTokens

/-- `CompositeDefFields::to_enum_variant_field_tokens`. -/
def CompositeDefFields.to_enum_variant_field_tokens (fields_def : CompositeDefFields) :
    TokenStream :=
  match fields_def with
  | CompositeDefFields.NoFields => []
  | CompositeDefFields.Named fields =>
    [Token.lbrace] ++
      (fields.flatMap fun field => variantNamedFieldTokens field ++ [Token.comma]) ++
      [Token.rbrace]
  | CompositeDefFields.Unnamed fields =>
    [Token.lparen] ++
      (fields.flatMap fun field => variantUnnamedFieldTokens field ++ [Token.comma]) ++
      [Token.rparen]

/-- `ToTokens for CompositeDef`: dispatch on the kind. Struct mode renders
`#derives pub struct #name #type_params #fields #trailing_semicolon`; variant
mode renders `#name #fields`. -/
def CompositeDef.toTokens (cd : CompositeDef) : TokenStream :=
  match cd.kind with
  | CompositeDefKind.Struct derives type_params field_visibility =>
    let phantom_data := type_params.unused_phantom
    let fields := cd.fields.to_struct_field_tokens phantom_data field_visibility
    let trailing_semicolon :=
      match cd.fields with
      | CompositeDefFields.NoFields => [Token.semicolon]
      | CompositeDefFields.Unnamed _ => [Token.semicolon]
      | CompositeDefFields.Named _ => []
    [Token.derivesBlock derives, Token.pubKw, Token.structKw, Token.ident cd.name,
      Token.typeParamsTok type_params] ++ fields ++ trailing_semicolon
  | CompositeDefKind.EnumVariant =>
    Token.ident cd.name :: cd.fields.to_enum_variant_field_tokens

/-- The derive set stored in a `CompositeDef`'s kind (empty for a variant,
which carries none). -/
def CompositeDef.derivesOf (cd : CompositeDef) : GeneratedTypeDerives :=
  match cd.kind with
  | CompositeDefKind.Struct derives _ _ => derives
  | CompositeDefKind.EnumVariant => []

/-- Spec-side condition for the compact-as derive, written from the spec's
words ("exactly one field, that field's type is a primitive unsigned integer
of width 8/16/32/64/128 bits, and that field's declared type is not itself one
of the declaration's own generic parameters, checked by name equality against
the original, unresolved parameter name"), to be compared with what
`struct_def` computes. -/
def compactAsSpecCond (type_params : TypeDefParameters) (fields_def : CompositeDefFields)
    (type_gen : TypeGenerator) : Prop :=
  ∃ field, fields_def.field_types = [field] ∧
    isUnsignedIntPrimitive (type_gen.resolve_type field.type_id).type_def = true ∧
    ∀ tp ∈ type_params.params, field.type_name ≠ some tp.original_name

/-- Demonstration registry for concrete witnesses: id 1 resolves to `u64`,
id 7 to `u128`, everything else to a non-primitive definition. -/
def demoRegistry : Nat → ResolvedTy
  | 1 => { type_def := TypeDef.primitive TypeDefPrimitive.u64 }
  | 7 => { type_def := TypeDef.primitive TypeDefPrimitive.u128 }
  | _ => { type_def := TypeDef.other }

/-- Demonstration path resolution: a non-compact display path from the id. -/
def demoPathOf (id : Nat) (_ps : List TypeParameter) : TypePath :=
  { display := "ty" ++ Nat.repr id, is_compact := false }

/-- A concrete `TypeGenerator` used by the witnesses. -/
def demoGen : TypeGenerator :=
  { resolve_type_path := demoPathOf
    resolve_type := demoRegistry
    derives := [Derive.other "Encode"] }

/-- Concrete raw field for the round-trip scenario of C4:
`(name: "amount", type: u128, type_name: "Box<u128>")`. -/
def c4field : Field :=
  { name := some "amount", ty_id := 7, type_name := some "Box<u128>" }

/-- The enclosing generic parameter `T` of the C4 scenario. -/
def c4param : TypeParameter := { original_name := "T" }

/-- C4's generic parameters: `T` unused, so the phantom-data marker exists. -/
def c4params : TypeDefParameters :=
  { params := [c4param], unused_phantom := some "PhantomDataT" }

/-- The resolved field type the normalizer builds in the C4 scenario. -/
def c4fieldType : CompositeDefFieldType := mkFieldType demoGen [c4param] c4field

end CompositeDefModel

namespace CompositeDefModel

theorem collectFields_fst_eq_nil (type_gen : TypeGenerator) (ps : List TypeParameter) :
    ∀ fields : List Field,
      (collectFields type_gen ps fields).1 = [] ↔ ∀ f ∈ fields, f.name = none
  | [] => by simp [collectFields]
  | field :: rest => by
    have ih := collectFields_fst_eq_nil type_gen ps rest
    cases hname : field.name with
    | some n => simp [collectFields, hname]
    | none => simp [collectFields, hname, ih]

theorem collectFields_snd_eq_nil (type_gen : TypeGenerator) (ps : List TypeParameter) :
    ∀ fields : List Field,
      (collectFields type_gen ps fields).2 = [] ↔ ∀ f ∈ fields, f.name ≠ none
  | [] => by simp [collectFields]
  | field :: rest => by
    have ih := collectFields_snd_eq_nil type_gen ps rest
    cases hname : field.name with
    | some n => simp [collectFields, hname, ih]
    | none => simp [collectFields, hname]

theorem collectFields_all_named (type_gen : TypeGenerator) (ps : List TypeParameter) :
    ∀ fields : List Field, (∀ f ∈ fields, f.name ≠ none) →
      collectFields type_gen ps fields =
        (fields.map fun f => ((f.name).getD "", mkFieldType type_gen ps f), [])
  | [], _ => by simp [collectFields]
  | field :: rest, h => by
    have ih := collectFields_all_named type_gen ps rest fun f hf => h f (List.mem_cons_of_mem _ hf)
    cases hname : field.name with
    | some n => simp [collectFields, hname, ih]
    | none => exact absurd hname (h field (List.mem_cons_self _ _))

theorem collectFields_all_unnamed (type_gen : TypeGenerator) (ps : List TypeParameter) :
    ∀ fields : List Field, (∀ f ∈ fields, f.name = none) →
      collectFields type_gen ps fields = ([], fields.map (mkFieldType type_gen ps))
  | [], _ => by simp [collectFields]
  | field :: rest, h => by
    have ih :=
      collectFields_all_unnamed type_gen ps rest fun f hf => h f (List.mem_cons_of_mem _ hf)
    have hname : field.name = none := h field (List.mem_cons_self _ _)
    simp [collectFields, hname, ih]

/-- C1: a field list containing at least one named and at least one unnamed
field makes `from_scale_info_fields` fail fatally, with the diagnostic that
quotes the offending declared type's name, rather than return a field model. -/
theorem claim_C1_mixed_naming_fatal
    (name : String) (fields : List Field) (ps : List TypeParameter) (type_gen : TypeGenerator)
    (hnamed : ∃ f ∈ fields, (f.name).isSome = true)
    (hunnamed : ∃ f ∈ fields, f.name = none) :
    CompositeDefFields.from_scale_info_fields name fields ps type_gen =
      Except.error (mixedNamingMsg name) := by
  obtain ⟨fn, hfnmem, hfn⟩ := hnamed
  obtain ⟨fu, hfumem, hfu⟩ := hunnamed
  have hne : fields.isEmpty = false := by
    cases fields with
    | nil => cases hfnmem
    | cons a as => rfl
  have h1 : ¬ (collectFields type_gen ps fields).1 = [] := by
    intro h
    have := (collectFields_fst_eq_nil type_gen ps fields).1 h fn hfnmem
    rw [this] at hfn
    cases hfn
  have h2 : ¬ (collectFields type_gen ps fields).2 = [] := by
    intro h
    exact (collectFields_snd_eq_nil type_gen ps fields).1 h fu hfumem hfu
  simp only [CompositeDefFields.from_scale_info_fields, hne, Bool.false_eq_true,
    if_false, List.isEmpty_eq_true, h1, h2, not_false_iff, and_self, if_true]

/-- Witness for C1 at a concrete mixed field list. -/
theorem claim_C1_witness :
    CompositeDefFields.from_scale_info_fields "Mixed"
        [{ name := some "a", ty_id := 1, type_name := none },
         { name := none, ty_id := 1, type_name := none }] [] demoGen =
      Except.error (mixedNamingMsg "Mixed") :=
  claim_C1_mixed_naming_fatal "Mixed" _ [] demoGen
    ⟨{ name := some "a", ty_id := 1, type_name := none }, by simp, by simp⟩
    ⟨{ name := none, ty_id := 1, type_name := none }, by simp, by simp⟩

/-- C2: `from_scale_info_fields` returns `NoFields` on the empty list; on a
non-empty all-named list it returns `Named` with the (name, resolved field
type) pairs in input order; on a non-empty all-unnamed list it returns
`Unnamed` with the resolved field types in input order. -/
theorem claim_C2_bucketing_preserves_order
    (name : String) (fields : List Field) (ps : List TypeParameter) (type_gen : TypeGenerator) :
    (fields = [] →
      CompositeDefFields.from_scale_info_fields name fields ps type_gen =
        Except.ok CompositeDefFields.NoFields) ∧
    (fields ≠ [] → (∀ f ∈ fields, (f.name).isSome = true) →
      CompositeDefFields.from_scale_info_fields name fields ps type_gen =
        Except.ok (CompositeDefFields.Named
          (fields.map fun f => ((f.name).getD "", mkFieldType type_gen ps f)))) ∧
    (fields ≠ [] → (∀ f ∈ fields, f.name = none) →
      CompositeDefFields.from_scale_info_fields name fields ps type_gen =
        Except.ok (CompositeDefFields.Unnamed (fields.map (mkFieldType type_gen ps)))) := by
  refine ⟨fun h => by subst h; rfl, fun hne hall => ?_, fun hne hall => ?_⟩
  · have hnamed : ∀ f ∈ fields, f.name ≠ none := by
      intro f hf h
      have := hall f hf
      rw [h] at this
      cases this
    have hcoll := collectFields_all_named type_gen ps fields hnamed
    have hempty : fields.isEmpty = false := by
      cases fields with
      | nil => exact absurd rfl hne
      | cons a as => rfl
    have hmapne : ¬ (fields.map fun f => ((f.name).getD "", mkFieldType type_gen ps f)) = [] := by
      simpa using hne
    simp only [CompositeDefFields.from_scale_info_fields, hempty, Bool.false_eq_true, if_false,
      hcoll, List.isEmpty_eq_true, hmapne, not_true, false_and, and_false, if_false,
      not_false_iff, if_true]
  · have hcoll := collectFields_all_unnamed type_gen ps fields hall
    have hempty : fields.isEmpty = false := by
      cases fields with
      | nil => exact absurd rfl hne
      | cons a as => rfl
    simp only [CompositeDefFields.from_scale_info_fields, hempty, Bool.false_eq_true, if_false,
      hcoll, List.isEmpty_eq_true, not_true, false_and, and_false, if_false, not_true_eq_false,
      if_true]

/-- Witness for C2 on concrete lists: an all-named list and an all-unnamed
list (applied through the theorem's second and third clauses). -/
theorem claim_C2_witness :
    CompositeDefFields.from_scale_info_fields "Pair"
        [{ name := some "a", ty_id := 1, type_name := none },
         { name := some "b", ty_id := 2, type_name := none }] [] demoGen =
      Except.ok (CompositeDefFields.Named
        [("a", { type_id := 1, type_path := { display := "ty1", is_compact := false },
                 type_name := none }),
         ("b", { type_id := 2, type_path := { display := "ty2", is_compact := false },
                 type_name := none })]) := by
  have h := (claim_C2_bucketing_preserves_order "Pair"
    [{ name := some "a", ty_id := 1, type_name := none },
     { name := some "b", ty_id := 2, type_name := none }] [] demoGen).2.1
    (by simp) (by simp)
  simpa [mkFieldType, demoGen, demoPathOf, Nat.repr] using h

/-- C3: `struct_def` produces exactly the ambient derive set plus the
compact-as derive when the spec's condition holds (single field, unsigned-int
primitive resolved type, field type name matching no generic parameter's
original name), and exactly the ambient derive set otherwise. -/
theorem claim_C3_compact_as_derive
    (ident : String) (type_params : TypeDefParameters) (fields_def : CompositeDefFields)
    (field_visibility : Option String) (type_gen : TypeGenerator) :
    (compactAsSpecCond type_params fields_def type_gen →
      (CompositeDef.struct_def ident type_params fields_def field_visibility
          type_gen).derivesOf =
        push_codec_compact_as type_gen.derives) ∧
    (¬ compactAsSpecCond type_params fields_def type_gen →
      (CompositeDef.struct_def ident type_params fields_def field_visibility
          type_gen).derivesOf =
        type_gen.derives) := by
  constructor
  · rintro ⟨field, hft, hprim, hparams⟩
    have hany :
        (type_params.params.any fun tp => some tp.original_name = field.type_name) = false := by
      rw [List.any_eq_false]
      intro tp htp
      simpa using fun h => hparams tp htp h.symm
    simp [CompositeDef.struct_def, CompositeDef.derivesOf, hft, hany, hprim]
  · intro hnot
    cases hft : fields_def.field_types with
    | nil => simp [CompositeDef.struct_def, CompositeDef.derivesOf, hft]
    | cons field tail =>
      cases tail with
      | cons f2 rest => simp [CompositeDef.struct_def, CompositeDef.derivesOf, hft]
      | nil =>
        by_cases hany :
            (type_params.params.any fun tp => some tp.original_name = field.type_name) = true
        · simp [CompositeDef.struct_def, CompositeDef.derivesOf, hft, hany]
        · have hany' :
              (type_params.params.any fun tp => some tp.original_name = field.type_name)
                = false := by
            simpa using hany
          have hprim :
              isUnsignedIntPrimitive (type_gen.resolve_type field.type_id).type_def = false := by
            by_contra h
            apply hnot
            refine ⟨field, hft, by simpa using h, ?_⟩
            intro tp htp heq
            have := List.any_eq_false.mp hany' tp htp
            simp [heq] at this
          simp [CompositeDef.struct_def, CompositeDef.derivesOf, hft, hany', hprim]

/-- Witness for C3: a single unnamed `u64` field inside a declaration with one
generic parameter `T` (whose name differs from the field's type name) gains
exactly the compact-as derive on top of the ambient set. -/
theorem claim_C3_witness :
    ( CompositeDef.struct_def "Balance"
        { params := [{ original_name := "T" }], unused_phantom := none }
        (CompositeDefFields.Unnamed
          [{ type_id := 1, type_path := { display := "ty1", is_compact := false },
             type_name := some "u64" }])
        none demoGen).derivesOf =
      [Derive.other "Encode", Derive.codec_compact_as] := by
  have h := (claim_C3_compact_as_derive "Balance"
    { params := [{ original_name := "T" }], unused_phantom := none }
    (CompositeDefFields.Unnamed
      [{ type_id := 1, type_path := { display := "ty1", is_compact := false },
         type_name := some "u64" }])
    none demoGen).1
    ⟨{ type_id := 1, type_path := { display := "ty1", is_compact := false },
       type_name := some "u64" }, rfl, by decide, by decide⟩
  simpa [push_codec_compact_as, demoGen] using h

/-- C4 counterexample: on the round-trip input
`(name: "amount", type: u128, type_name: "Box<u128>")` with enclosing generic
parameter `T`, the record DOES receive the compact-as derive (the resolved
type is the `u128` primitive and `"Box<u128>" ≠ "T"`), refuting the claim's
"does not receive the compact-as derive" conjunct. -/
theorem claim_C4_counterexample :
    CompositeDefFields.from_scale_info_fields "Foo" [c4field] [c4param] demoGen =
      Except.ok (CompositeDefFields.Named [("amount", c4fieldType)]) ∧
    Derive.codec_compact_as ∈
      ( CompositeDef.struct_def "Foo" c4params
          (CompositeDefFields.Named [("amount", c4fieldType)]) none demoGen).derivesOf := by
  exact ⟨rfl, by decide⟩

/-- C4 amended: the round-trip input normalizes to
`Named [("amount", boxed field)]`, the record render is a single named field
wrapped in the heap-indirection type plus the trailing unused-generics marker
field carrying the skip-encoding attribute (and no trailing terminator), and
the record DOES receive the compact-as derive. -/
theorem claim_C4_roundtrip_amended :
    CompositeDefFields.from_scale_info_fields "Foo" [c4field] [c4param] demoGen =
      Except.ok (CompositeDefFields.Named [("amount", c4fieldType)]) ∧
    c4fieldType.is_boxed = true ∧
    ( CompositeDef.struct_def "Foo" c4params
        (CompositeDefFields.Named [("amount", c4fieldType)]) none demoGen).derivesOf =
      push_codec_compact_as demoGen.derives ∧
    ( CompositeDef.struct_def "Foo" c4params
        (CompositeDefFields.Named [("amount", c4fieldType)]) none demoGen).toTokens =
      [Token.derivesBlock (push_codec_compact_as demoGen.derives), Token.pubKw, Token.structKw,
       Token.ident "Foo", Token.typeParamsTok c4params, Token.lbrace,
       Token.ident "amount", Token.colon,
       Token.boxOpen, Token.pathTok "ty7", Token.gtClose, Token.comma,
       Token.skipAttr, Token.unusedMarkerName, Token.colon, Token.phantomTok "PhantomDataT",
       Token.rbrace] := by
  refine ⟨rfl, by decide, by decide, by decide⟩

/-- C9: a field whose original textual type name is absent is never boxed and
always renders as its resolved path verbatim. -/
theorem claim_C9_none_type_name_unboxed (f : CompositeDefFieldType)
    (h : f.type_name = none) :
    f.is_boxed = false ∧ f.toTokens = [Token.pathTok f.type_path.display] := by
  have hb : f.is_boxed = false := by
    simp [CompositeDefFieldType.is_boxed, h]
  exact ⟨hb, by simp [CompositeDefFieldType.toTokens, hb]⟩

/-- Witness for C9 at a concrete field with no original type name. -/
theorem claim_C9_witness :
    CompositeDefFieldType.is_boxed
        { type_id := 1, type_path := { display := "ty1", is_compact := false },
          type_name := none } = false ∧
    CompositeDefFieldType.toTokens
        { type_id := 1, type_path := { display := "ty1", is_compact := false },
          type_name := none } = [Token.pathTok "ty1"] :=
  claim_C9_none_type_name_unboxed
    { type_id := 1, type_path := { display := "ty1", is_compact := false },
      type_name := none } rfl

/-- C10: with a single field whose `type_name` is absent, the generic-parameter
exclusion check never matches, so the compact-as derive is governed solely by
whether the resolved type is an unsigned-int primitive — for every generic
parameter list. -/
theorem claim_C10_absent_type_name_derive
    (ident : String) (type_params : TypeDefParameters) (fields_def : CompositeDefFields)
    (field_visibility : Option String) (type_gen : TypeGenerator)
    (field : CompositeDefFieldType)
    (h1 : fields_def.field_types = [field]) (h2 : field.type_name = none) :
    (CompositeDef.struct_def ident type_params fields_def field_visibility
        type_gen).derivesOf =
      if isUnsignedIntPrimitive (type_gen.resolve_type field.type_id).type_def then
        push_codec_compact_as type_gen.derives
      else type_gen.derives := by
  have hany :
      (type_params.params.any fun tp => some tp.original_name = field.type_name) = false := by
    rw [List.any_eq_false]
    intro tp htp
    simp [h2]
  simp [CompositeDef.struct_def, CompositeDef.derivesOf, h1, hany]

/-- Witness for C10: a single unnamed field with `type_name` absent resolving
to `u64`, inside a declaration that does have a generic parameter, still gains
the compact-as derive. -/
theorem claim_C10_witness :
    ( CompositeDef.struct_def "Wrapper"
        { params := [{ original_name := "T" }], unused_phantom := none }
        (CompositeDefFields.Unnamed
          [{ type_id := 1, type_path := { display := "ty1", is_compact := false },
             type_name := none }])
        none demoGen).derivesOf =
      [Derive.other "Encode", Derive.codec_compact_as] := by
  have h := claim_C10_absent_type_name_derive "Wrapper"
    { params := [{ original_name := "T" }], unused_phantom := none }
    (CompositeDefFields.Unnamed
      [{ type_id := 1, type_path := { display := "ty1", is_compact := false },
         type_name := none }])
    none demoGen
    { type_id := 1, type_path := { display := "ty1", is_compact := false },
      type_name := none } rfl rfl
  simpa [push_codec_compact_as, demoGen, demoRegistry, isUnsignedIntPrimitive] using h

theorem isPrefixB_iff : ∀ p l : List Char, isPrefixB p l = true ↔ p <+: l
  | [], l => by simp [isPrefixB]
  | a :: as, [] => by simp [isPrefixB]
  | a :: as, b :: bs => by
    rw [isPrefixB, Bool.and_eq_true, decide_eq_true_eq, isPrefixB_iff as bs,
      List.cons_prefix_cons]

theorem containsSub_iff (p : List Char) : ∀ l : List Char,
    containsSub p l = true ↔ p <:+: l
  | [] => by
    rw [containsSub, List.isEmpty_eq_true, List.infix_nil]
  | c :: rest => by
    rw [containsSub, Bool.or_eq_true, isPrefixB_iff, containsSub_iff p rest,
      List.infix_cons_iff]

theorem strContains_iff (s pat : String) :
    strContains s pat = true ↔ pat.toList <:+: s.toList :=
  containsSub_iff pat.toList s.toList

/-- C5: `is_boxed` holds exactly when the original type name text contains the
`Box<` marker, and the field renders wrapped in the heap-indirection type
exactly in that case (regardless of the resolved path); without the marker it
renders as the resolved path verbatim. -/
theorem claim_C5_boxing_heuristic (f : CompositeDefFieldType) :
    (f.is_boxed = true ↔
      ∃ s, f.type_name = some s ∧ "Box<".toList <:+: s.toList) ∧
    (f.toTokens = [Token.boxOpen, Token.pathTok f.type_path.display, Token.gtClose] ↔
      ∃ s, f.type_name = some s ∧ "Box<".toList <:+: s.toList) ∧
    (f.toTokens = [Token.pathTok f.type_path.display] ↔
      ¬ ∃ s, f.type_name = some s ∧ "Box<".toList <:+: s.toList) := by
  have hbox : f.is_boxed = true ↔
      ∃ s, f.type_name = some s ∧ "Box<".toList <:+: s.toList := by
    cases hn : f.type_name with
    | none => simp [CompositeDefFieldType.is_boxed, hn]
    | some s => simp [CompositeDefFieldType.is_boxed, hn, strContains_iff]
  refine ⟨hbox, ?_, ?_⟩
  · rw [← hbox]
    by_cases hb : f.is_boxed = true
    · simp [CompositeDefFieldType.toTokens, hb]
    · simp [CompositeDefFieldType.toTokens, hb]
  · rw [← hbox]
    by_cases hb : f.is_boxed = true
    · simp [CompositeDefFieldType.toTokens, hb]
    · simp [CompositeDefFieldType.toTokens, hb]

theorem count_compactAttr_attr (f : CompositeDefFieldType) :
    (optTokens f.compact_attr).count Token.compactAttr =
      if f.type_path.is_compact then 1 else 0 := by
  by_cases h : f.type_path.is_compact = true <;>
    simp [CompositeDefFieldType.compact_attr, optTokens, h]

theorem count_compactAttr_vis (v : Option String) :
    (visTokens v).count Token.compactAttr = 0 := by
  cases v <;> simp [visTokens]

theorem count_compactAttr_ty (f : CompositeDefFieldType) :
    (f.toTokens).count Token.compactAttr = 0 := by
  by_cases h : f.is_boxed = true <;> simp [CompositeDefFieldType.toTokens, h]

theorem count_compactAttr_structNamed (vis : Option String)
    (field : String × CompositeDefFieldType) :
    (structNamedFieldTokens vis field).count Token.compactAttr =
      if field.2.type_path.is_compact then 1 else 0 := by
  simp [structNamedFieldTokens, List.count_append, count_compactAttr_attr,
    count_compactAttr_vis, count_compactAttr_ty]

theorem count_compactAttr_structUnnamed (vis : Option String)
    (field : CompositeDefFieldType) :
    (structUnnamedFieldTokens vis field).count Token.compactAttr =
      if field.type_path.is_compact then 1 else 0 := by
  simp [structUnnamedFieldTokens, List.count_append, count_compactAttr_attr,
    count_compactAttr_vis, count_compactAttr_ty]

theorem count_compactAttr_variantNamed (field : String × CompositeDefFieldType) :
    (variantNamedFieldTokens field).count Token.compactAttr =
      if field.2.type_path.is_compact then 1 else 0 := by
  simp [variantNamedFieldTokens, List.count_append, count_compactAttr_attr,
    count_compactAttr_ty]

theorem count_compactAttr_variantUnnamed (field : CompositeDefFieldType) :
    (variantUnnamedFieldTokens field).count Token.compactAttr =
      if field.type_path.is_compact then 1 else 0 := by
  simp [variantUnnamedFieldTokens, List.count_append, count_compactAttr_attr,
    count_compactAttr_ty]

theorem count_compactAttr_flatMap {α : Type} (g : α → TokenStream) (w : α → Bool)
    (h : ∀ a, (g a).count Token.compactAttr = if w a then 1 else 0) :
    ∀ fs : List α,
      ((fs.flatMap fun a => g a ++ [Token.comma]).count Token.compactAttr) =
        (fs.filter w).length
  | [] => by simp
  | a :: rest => by
    rw [List.flatMap_cons, List.count_append, List.count_append,
      count_compactAttr_flatMap g w h rest, h a]
    by_cases hw : w a = true <;> simp [hw, List.filter_cons, Nat.add_comm]

theorem count_compactAttr_marker (phantom_data : Option String) (vis : Option String) :
    ((match phantom_data with
      | some phantom =>
        [Token.skipAttr] ++ visTokens vis ++
          [Token.unusedMarkerName, Token.colon, Token.phantomTok phantom]
      | none => []) : TokenStream).count Token.compactAttr = 0 := by
  cases phantom_data <;> cases vis <;> simp [visTokens]

theorem filter_compact_map_snd (fields : List (String × CompositeDefFieldType)) :
    ((fields.map Prod.snd).filter fun t => t.type_path.is_compact).length =
      (fields.filter fun field => field.2.type_path.is_compact).length := by
  induction fields with
  | nil => rfl
  | cons a rest ih =>
    by_cases h : a.2.type_path.is_compact = true <;>
      simp [List.filter_cons, h, ih]

/-- C6: in both record rendering and variant rendering, the number of
compact-encoding attributes equals the number of fields whose resolved type
path is compact (so no field gains or loses the attribute), and every
per-field token chunk starts with the compact-encoding attribute exactly when
that field's resolved type path is compact. -/
theorem claim_C6_compact_attr_per_field (fields_def : CompositeDefFields)
    (phantom_data : Option String) (visibility : Option String) :
    ((fields_def.to_struct_field_tokens phantom_data visibility).count Token.compactAttr =
      (fields_def.field_types.filter fun t => t.type_path.is_compact).length) ∧
    ((fields_def.to_enum_variant_field_tokens).count Token.compactAttr =
      (fields_def.field_types.filter fun t => t.type_path.is_compact).length) ∧
    (∀ n ty, (structNamedFieldTokens visibility (n, ty)).head? = some Token.compactAttr ↔
      ty.type_path.is_compact = true) ∧
    (∀ ty, (structUnnamedFieldTokens visibility ty).head? = some Token.compactAttr ↔
      ty.type_path.is_compact = true) ∧
    (∀ n ty, (variantNamedFieldTokens (n, ty)).head? = some Token.compactAttr ↔
      ty.type_path.is_compact = true) ∧
    (∀ ty, (variantUnnamedFieldTokens ty).head? = some Token.compactAttr ↔
      ty.type_path.is_compact = true) := by
  refine ⟨?_, ?_, ?_, ?_, ?_, ?_⟩
  · cases fields_def with
    | NoFields =>
      cases phantom_data <;>
        simp [CompositeDefFields.to_struct_field_tokens, CompositeDefFields.field_types]
    | Named fields =>
      have hflat := count_compactAttr_flatMap (structNamedFieldTokens visibility)
        (fun field => field.2.type_path.is_compact)
        (count_compactAttr_structNamed visibility) fields
      simp only [CompositeDefFields.to_struct_field_tokens, CompositeDefFields.field_types,
        List.count_append, hflat, count_compactAttr_marker phantom_data visibility,
        filter_compact_map_snd]
      simp
    | Unnamed fields =>
      have hflat := count_compactAttr_flatMap (structUnnamedFieldTokens visibility)
        (fun field => field.type_path.is_compact)
        (count_compactAttr_structUnnamed visibility) fields
      cases phantom_data <;> cases visibility <;>
        simp [CompositeDefFields.to_struct_field_tokens, CompositeDefFields.field_types,
          List.count_append, hflat, visTokens, count_compactAttr_vis]
  · cases fields_def with
    | NoFields => simp [CompositeDefFields.to_enum_variant_field_tokens,
        CompositeDefFields.field_types]
    | Named fields =>
      have hflat := count_compactAttr_flatMap variantNamedFieldTokens
        (fun field => field.2.type_path.is_compact)
        count_compactAttr_variantNamed fields
      simp only [CompositeDefFields.to_enum_variant_field_tokens,
        CompositeDefFields.field_types, List.count_append, hflat, filter_compact_map_snd]
      simp
    | Unnamed fields =>
      have hflat := count_compactAttr_flatMap variantUnnamedFieldTokens
        (fun field => field.type_path.is_compact)
        count_compactAttr_variantUnnamed fields
      simp [CompositeDefFields.to_enum_variant_field_tokens,
        CompositeDefFields.field_types, List.count_append, hflat]
  · intro n ty
    by_cases h : ty.type_path.is_compact = true <;>
      cases visibility <;>
        simp [structNamedFieldTokens, CompositeDefFieldType.compact_attr, optTokens,
          visTokens, h]
  · intro ty
    by_cases hb : ty.is_boxed = true <;>
      by_cases h : ty.type_path.is_compact = true <;>
        cases visibility <;>
          simp [structUnnamedFieldTokens, CompositeDefFieldType.compact_attr, optTokens,
            visTokens, h, CompositeDefFieldType.toTokens, hb]
  · intro n ty
    by_cases h : ty.type_path.is_compact = true <;>
      simp [variantNamedFieldTokens, CompositeDefFieldType.compact_attr, optTokens, h]
  · intro ty
    by_cases hb : ty.is_boxed = true <;>
      by_cases h : ty.type_path.is_compact = true <;>
        simp [variantUnnamedFieldTokens, CompositeDefFieldType.compact_attr, optTokens, h,
          CompositeDefFieldType.toTokens, hb]

/-- Tokens that may appear inside a rendered field list (record syntax):
everything except the declaration-level tokens (derive block, `pub`, `struct`,
generic-parameter list, trailing terminator). -/
def fieldTok : Token → Bool
  | Token.derivesBlock _ => false
  | Token.pubKw => false
  | Token.structKw => false
  | Token.typeParamsTok _ => false
  | Token.semicolon => false
  | _ => true

/-- Tokens that may appear inside a rendered variant field list: additionally
excludes visibility markers and the unused-generics machinery. -/
def variantTok : Token → Bool
  | Token.derivesBlock _ => false
  | Token.pubKw => false
  | Token.structKw => false
  | Token.typeParamsTok _ => false
  | Token.semicolon => false
  | Token.visTok _ => false
  | Token.phantomTok _ => false
  | Token.skipAttr => false
  | Token.unusedMarkerName => false
  | _ => true

theorem all_mem_flatMap_comma {α : Type} (p : Token → Bool) (hcomma : p Token.comma = true)
    (g : α → TokenStream) (h : ∀ a, ∀ t ∈ g a, p t = true) :
    ∀ fs : List α, ∀ t ∈ fs.flatMap fun a => g a ++ [Token.comma], p t = true := by
  intro fs t ht
  rcases List.mem_flatMap.mp ht with ⟨a, _, ha⟩
  rcases List.mem_append.mp ha with ha | ha
  · exact h a t ha
  · rcases List.mem_singleton.mp ha with rfl
    exact hcomma

theorem fieldTok_attr (p : Token → Bool) (hc : p Token.compactAttr = true)
    (f : CompositeDefFieldType) : ∀ t ∈ optTokens f.compact_attr, p t = true := by
  by_cases h : f.type_path.is_compact = true <;>
    simp [CompositeDefFieldType.compact_attr, optTokens, h, hc]

theorem fieldTok_ty (p : Token → Bool) (hb : p Token.boxOpen = true)
    (hg : p Token.gtClose = true) (hp : ∀ s, p (Token.pathTok s) = true)
    (f : CompositeDefFieldType) : ∀ t ∈ f.toTokens, p t = true := by
  by_cases h : f.is_boxed = true <;>
    simp_all [CompositeDefFieldType.toTokens, h]

theorem fieldTok_struct_fields (fields_def : CompositeDefFields)
    (phantom_data : Option String) (visibility : Option String) :
    ∀ t ∈ fields_def.to_struct_field_tokens phantom_data visibility, fieldTok t = true := by
  have hattr := fieldTok_attr fieldTok rfl
  have hty := fieldTok_ty fieldTok rfl rfl (fun _ => rfl)
  have hvis : ∀ t ∈ visTokens visibility, fieldTok t = true := by
    cases visibility <;> simp [visTokens, fieldTok]
  cases fields_def with
  | NoFields =>
    cases phantom_data <;> simp [CompositeDefFields.to_struct_field_tokens, fieldTok]
  | Named fields =>
    have hchunk : ∀ field, ∀ t ∈ structNamedFieldTokens visibility field, fieldTok t = true := by
      intro field t ht
      rcases List.mem_append.mp ht with ht | ht
      · rcases List.mem_append.mp ht with ht | ht
        · rcases List.mem_append.mp ht with ht | ht
          · exact hattr field.2 t ht
          · exact hvis t ht
        · rcases List.mem_cons.mp ht with rfl | ht
          · rfl
          · rcases List.mem_singleton.mp ht with rfl; rfl
      · exact hty field.2 t ht
    intro t ht
    cases phantom_data with
    | none =>
      simp only [CompositeDefFields.to_struct_field_tokens, List.append_nil] at ht
      rcases List.mem_append.mp ht with ht | ht
      · rcases List.mem_append.mp ht with ht | ht
        · rcases List.mem_singleton.mp ht with rfl; rfl
        · exact all_mem_flatMap_comma fieldTok rfl _ hchunk fields t ht
      · rcases List.mem_singleton.mp ht with rfl; rfl
    | some phantom =>
      simp only [CompositeDefFields.to_struct_field_tokens] at ht
      rcases List.mem_append.mp ht with ht | ht
      · rcases List.mem_append.mp ht with ht | ht
        · rcases List.mem_append.mp ht with ht | ht
          · rcases List.mem_singleton.mp ht with rfl; rfl
          · exact all_mem_flatMap_comma fieldTok rfl _ hchunk fields t ht
        · rcases List.mem_append.mp ht with ht | ht
          · rcases List.mem_append.mp ht with ht | ht
            · rcases List.mem_singleton.mp ht with rfl; rfl
            · exact hvis t ht
          · rcases List.mem_cons.mp ht with rfl | ht
            · rfl
            · rcases List.mem_cons.mp ht with rfl | ht
              · rfl
              · rcases List.mem_singleton.mp ht with rfl; rfl
      · rcases List.mem_singleton.mp ht with rfl; rfl
  | Unnamed fields =>
    have hchunk : ∀ field, ∀ t ∈ structUnnamedFieldTokens visibility field,
        fieldTok t = true := by
      intro field t ht
      rcases List.mem_append.mp ht with ht | ht
      · rcases List.mem_append.mp ht with ht | ht
        · exact hattr field t ht
        · exact hvis t ht
      · exact hty field t ht
    intro t ht
    cases phantom_data with
    | none =>
      simp only [CompositeDefFields.to_struct_field_tokens, List.append_nil] at ht
      rcases List.mem_append.mp ht with ht | ht
      · rcases List.mem_append.mp ht with ht | ht
        · rcases List.mem_singleton.mp ht with rfl; rfl
        · exact all_mem_flatMap_comma fieldTok rfl _ hchunk fields t ht
      · rcases List.mem_singleton.mp ht with rfl; rfl
    | some phantom =>
      simp only [CompositeDefFields.to_struct_field_tokens] at ht
      rcases List.mem_append.mp ht with ht | ht
      · rcases List.mem_append.mp ht with ht | ht
        · rcases List.mem_append.mp ht with ht | ht
          · rcases List.mem_singleton.mp ht with rfl; rfl
          · exact all_mem_flatMap_comma fieldTok rfl _ hchunk fields t ht
        · rcases List.mem_append.mp ht with ht | ht
          · rcases List.mem_append.mp ht with ht | ht
            · rcases List.mem_singleton.mp ht with rfl; rfl
            · exact hvis t ht
          · rcases List.mem_singleton.mp ht with rfl; rfl
      · rcases List.mem_singleton.mp ht with rfl; rfl

theorem variantTok_variant_fields (fields_def : CompositeDefFields) :
    ∀ t ∈ fields_def.to_enum_variant_field_tokens, variantTok t = true := by
  have hattr := fieldTok_attr variantTok rfl
  have hty := fieldTok_ty variantTok rfl rfl (fun _ => rfl)
  cases fields_def with
  | NoFields => simp [CompositeDefFields.to_enum_variant_field_tokens]
  | Named fields =>
    have hchunk : ∀ field, ∀ t ∈ variantNamedFieldTokens field, variantTok t = true := by
      intro field t ht
      rcases List.mem_append.mp ht with ht | ht
      · rcases List.mem_append.mp ht with ht | ht
        · exact hattr field.2 t ht
        · rcases List.mem_cons.mp ht with rfl | ht
          · rfl
          · rcases List.mem_singleton.mp ht with rfl; rfl
      · exact hty field.2 t ht
    intro t ht
    simp only [CompositeDefFields.to_enum_variant_field_tokens] at ht
    rcases List.mem_append.mp ht with ht | ht
    · rcases List.mem_append.mp ht with ht | ht
      · rcases List.mem_singleton.mp ht with rfl; rfl
      · exact all_mem_flatMap_comma variantTok rfl _ hchunk fields t ht
    · rcases List.mem_singleton.mp ht with rfl; rfl
  | Unnamed fields =>
    have hchunk : ∀ field, ∀ t ∈ variantUnnamedFieldTokens field, variantTok t = true := by
      intro field t ht
      rcases List.mem_append.mp ht with ht | ht
      · exact hattr field t ht
      · exact hty field t ht
    intro t ht
    simp only [CompositeDefFields.to_enum_variant_field_tokens] at ht
    rcases List.mem_append.mp ht with ht | ht
    · rcases List.mem_append.mp ht with ht | ht
      · rcases List.mem_singleton.mp ht with rfl; rfl
      · exact all_mem_flatMap_comma variantTok rfl _ hchunk fields t ht
    · rcases List.mem_singleton.mp ht with rfl; rfl

/-- C7: in record (struct) mode the rendered declaration ends with the
trailing terminator token exactly when the field model is `NoFields` or
`Unnamed`; a `Named` field model never produces the terminator anywhere. -/
theorem claim_C7_trailing_terminator (name : String) (derives : GeneratedTypeDerives)
    (type_params : TypeDefParameters) (field_visibility : Option String)
    (fields_def : CompositeDefFields) :
    ((CompositeDef.toTokens
        { name := name, kind := CompositeDefKind.Struct derives type_params field_visibility,
          fields := fields_def }).getLast? = some Token.semicolon ↔
      (fields_def = CompositeDefFields.NoFields ∨
        ∃ us, fields_def = CompositeDefFields.Unnamed us)) ∧
    (Token.semicolon ∈ CompositeDef.toTokens
        { name := name, kind := CompositeDefKind.Struct derives type_params field_visibility,
          fields := fields_def } ↔
      (fields_def = CompositeDefFields.NoFields ∨
        ∃ us, fields_def = CompositeDefFields.Unnamed us)) := by
  cases fields_def with
  | NoFields =>
    constructor
    · refine iff_of_true ?_ (Or.inl rfl)
      simp only [CompositeDef.toTokens]
      rw [List.getLast?_concat]
    · refine iff_of_true ?_ (Or.inl rfl)
      simp [CompositeDef.toTokens]
  | Unnamed fields =>
    constructor
    · refine iff_of_true ?_ (Or.inr ⟨fields, rfl⟩)
      simp only [CompositeDef.toTokens]
      rw [List.getLast?_concat]
    · refine iff_of_true ?_ (Or.inr ⟨fields, rfl⟩)
      simp [CompositeDef.toTokens]
  | Named fields =>
    have hrhs : ¬ (CompositeDefFields.Named fields = CompositeDefFields.NoFields ∨
        ∃ us, CompositeDefFields.Named fields = CompositeDefFields.Unnamed us) := by
      rintro (h | ⟨us, h⟩) <;> cases h
    have hnotmem : Token.semicolon ∉ CompositeDef.toTokens
        { name := name, kind := CompositeDefKind.Struct derives type_params field_visibility,
          fields := CompositeDefFields.Named fields } := by
      intro h
      simp only [CompositeDef.toTokens, List.append_nil] at h
      rcases List.mem_append.mp h with h | h
      · simp at h
      · have := fieldTok_struct_fields (CompositeDefFields.Named fields)
          type_params.unused_phantom field_visibility Token.semicolon h
        simp [fieldTok] at this
    constructor
    · refine iff_of_false ?_ hrhs
      intro h
      rcases List.mem_getLast?_eq_getLast (Option.mem_def.mpr h) with ⟨hne, heq⟩
      exact hnotmem (heq ▸ List.getLast_mem hne)
    · exact iff_of_false hnotmem hrhs

/-- C8: in variant mode the rendered output is exactly the variant name
followed by the variant field list, and it never contains a derive block, a
visibility marker, a generic-parameter list, the unused-generics placeholder
(phantom type, skip-encoding attribute or marker-field name), or the
declaration keywords. -/
theorem claim_C8_variant_minimal (name : String) (fields_def : CompositeDefFields) :
    (CompositeDef.enum_variant_def name fields_def).toTokens =
      Token.ident name :: fields_def.to_enum_variant_field_tokens ∧
    (∀ ds, Token.derivesBlock ds ∉ (CompositeDef.enum_variant_def name fields_def).toTokens) ∧
    (∀ v, Token.visTok v ∉ (CompositeDef.enum_variant_def name fields_def).toTokens) ∧
    (∀ ps, Token.typeParamsTok ps ∉ (CompositeDef.enum_variant_def name fields_def).toTokens) ∧
    (∀ p, Token.phantomTok p ∉ (CompositeDef.enum_variant_def name fields_def).toTokens) ∧
    Token.skipAttr ∉ (CompositeDef.enum_variant_def name fields_def).toTokens ∧
    Token.unusedMarkerName ∉ (CompositeDef.enum_variant_def name fields_def).toTokens ∧
    Token.pubKw ∉ (CompositeDef.enum_variant_def name fields_def).toTokens ∧
    Token.structKw ∉ (CompositeDef.enum_variant_def name fields_def).toTokens := by
  have hkey := variantTok_variant_fields fields_def
  have htoks : (CompositeDef.enum_variant_def name fields_def).toTokens =
      Token.ident name :: fields_def.to_enum_variant_field_tokens := rfl
  refine ⟨htoks, ?_, ?_, ?_, ?_, ?_, ?_, ?_, ?_⟩
  · intro ds h
    rw [htoks] at h
    rcases List.mem_cons.mp h with h | h
    · cases h
    · have := hkey _ h
      simp [variantTok] at this
  · intro v h
    rw [htoks] at h
    rcases List.mem_cons.mp h with h | h
    · cases h
    · have := hkey _ h
      simp [variantTok] at this
  · intro ps h
    rw [htoks] at h
    rcases List.mem_cons.mp h with h | h
    · cases h
    · have := hkey _ h
      simp [variantTok] at this
  · intro p h
    rw [htoks] at h
    rcases List.mem_cons.mp h with h | h
    · cases h
    · have := hkey _ h
      simp [variantTok] at this
  · intro h
    rw [htoks] at h
    rcases List.mem_cons.mp h with h | h
    · cases h
    · have := hkey _ h
      simp [variantTok] at this
  · intro h
    rw [htoks] at h
    rcases List.mem_cons.mp h with h | h
    · cases h
    · have := hkey _ h
      simp [variantTok] at this
  · intro h
    rw [htoks] at h
    rcases List.mem_cons.mp h with h | h
    · cases h
    · have := hkey _ h
      simp [variantTok] at this
  · intro h
    rw [htoks] at h
    rcases List.mem_cons.mp h with h | h
    · cases h
    · have := hkey _ h
      simp [variantTok] at this

end CompositeDefModel
